import Mathlib

/-!
Shallow embedding of the UM-32 universal machine simulator (um.py) and
verification of its specification claims.

Machine words are modelled as `Nat`; the source performs explicit
`% 2^32` reductions exactly where `um.py` does.  The array pool
(`self.platter`, a Python dict from identifier to list) is a total
function `Nat → Option (List Nat)`; `none` means the key is absent and
a Python `KeyError` on access is a trap, modelled by `Option` failure.
The register file (`self.gpr`, a list of exactly eight words that the
dispatch loop only ever indexes with 3-bit decoded fields) is a total
function `Nat → Nat`.  Console traffic is explicit in the state: `inp`
is the pending stdin bytes, `out` the code points written to stdout so
far (by OUTPUT's `print(chr(...))`, by INPUT's echo `print(ch)`, and by
HALT's diagnostic `print(...)`).
-/

namespace UMSim

/-- `WORDSIZE = 32` from um.py. -/
def WORDSIZE : Nat := 32

/-- `TWO_32 = 1 << WORDSIZE` from um.py. -/
def TWO_32 : Nat := 2 ^ WORDSIZE

/-- `Um.bits(w, start, l) = w >> (WORDSIZE - start - l) & ((1 << l) - 1)`:
the right shift is division by the power of two and the mask of the low
`l` bits is reduction modulo `2^l`. -/
def bits (w start l : Nat) : Nat :=
  w / 2 ^ (WORDSIZE - start - l) % 2 ^ l

/-- `Um.decodeInstruction`.  The fourth component is `none` for the
special operator 13 (LOAD), mirroring the `None` returned by the Python
code, and `some c` for the standard shape. -/
def decodeInstruction (i : Nat) : Nat × Nat × Nat × Option Nat :=
  let operator := bits i 0 4
  if operator = 13 then
    (operator, bits i 4 3, bits i 7 25, none)
  else
    (operator, bits i 23 3, bits i 26 3, some (bits i 29 3))

/-- `Um.encodeInstruction`: the source concatenates the binary strings
`operator` (4 bits), 19 zero bits, `a`, `b`, `c` (3 bits each); for
in-range fields (`operator < 16`, `a, b, c < 8`) that bit string is the
number below. -/
def encodeInstruction (operator a b c : Nat) : Nat :=
  operator * 2 ^ 28 + a * 2 ^ 6 + b * 2 ^ 3 + c

/-- `Um.encodeValue`: 4 bits of operator, 3 bits of register, 25 bits of
value; for in-range fields (`operator < 16`, `reg < 8`, `val < 2^25`)
the concatenated bit string is the number below. -/
def encodeValue (operator reg val : Nat) : Nat :=
  operator * 2 ^ 28 + reg * 2 ^ 25 + val

/-- The machine state of class `Um`: the platter pool, the execution
finger, the allocation counter, the eight general purpose registers,
and the console streams. -/
structure Um where
  platter : Nat → Option (List Nat)
  finger : Nat
  nextAlloc : Nat
  gpr : Nat → Nat
  inp : List Nat
  out : List Nat

/-- Write value `v` to register `r` (`self.gpr[r] = v`). -/
def Um.setReg (s : Um) (r v : Nat) : Um :=
  { s with gpr := fun i => if i = r then v else s.gpr i }

/-- `Um.__init__` followed by `loadScroll(code)`: the pool holds only
the '0' array populated from the scroll, the finger is 0, `nextAlloc`
is 1 and all registers are 0.  `stdin` is the console input the run
will consume. -/
def initUm (code : List Nat) (stdin : List Nat) : Um :=
  { platter := fun i => if i = 0 then some code else none
    finger := 0
    nextAlloc := 1
    gpr := fun _ => 0
    inp := stdin
    out := [] }

/-- Opcode 0, `conditionalMove`: `if self.gpr[c] != 0: self.gpr[a] = self.gpr[b]`. -/
def Um.conditionalMove (s : Um) (a b c : Nat) : Option Um :=
  some (if s.gpr c ≠ 0 then s.setReg a (s.gpr b) else s)

/-- Opcode 1, `arrayIndex`: `self.gpr[a] = self.platter[self.gpr[b]][self.gpr[c]]`;
a missing key (KeyError) or an out-of-range offset (IndexError) is a trap. -/
def Um.arrayIndex (s : Um) (a b c : Nat) : Option Um :=
  match s.platter (s.gpr b) with
  | none => none
  | some arr =>
    match arr[s.gpr c]? with
    | none => none
    | some v => some (s.setReg a v)

/-- Opcode 2, `arrayAmendment`: `self.platter[self.gpr[a]][self.gpr[b]] = self.gpr[c]`;
a missing key or an out-of-range offset is a trap. -/
def Um.arrayAmendment (s : Um) (a b c : Nat) : Option Um :=
  match s.platter (s.gpr a) with
  | none => none
  | some arr =>
    if s.gpr b < arr.length then
      some { s with platter := fun i =>
        if i = s.gpr a then some (arr.set (s.gpr b) (s.gpr c)) else s.platter i }
    else none

/-- Opcode 3, `addition`: `self.gpr[a] = (self.gpr[b] + self.gpr[c]) % TWO_32`. -/
def Um.addition (s : Um) (a b c : Nat) : Option Um :=
  some (s.setReg a ((s.gpr b + s.gpr c) % TWO_32))

/-- Opcode 4, `multiplication`: `self.gpr[a] = (self.gpr[b] * self.gpr[c]) % TWO_32`. -/
def Um.multiplication (s : Um) (a b c : Nat) : Option Um :=
  some (s.setReg a ((s.gpr b * s.gpr c) % TWO_32))

/-- Opcode 5, `division`: `self.gpr[a] = (self.gpr[b] // self.gpr[c]) % TWO_32`;
the Python ZeroDivisionError propagates, i.e. division by zero is a trap. -/
def Um.division (s : Um) (a b c : Nat) : Option Um :=
  if s.gpr c = 0 then none
  else some (s.setReg a (s.gpr b / s.gpr c % TWO_32))

/-- Opcode 6, `notAnd`: `self.gpr[a] = (~(self.gpr[b] & self.gpr[c])) % TWO_32`.
Python's `~x` on the non-negative `x = b & c` is `-x - 1`, and `% TWO_32`
is the non-negative Python remainder, here `Int.emod` followed by `toNat`. -/
def Um.notAnd (s : Um) (a b c : Nat) : Option Um :=
  some (s.setReg a ((-((s.gpr b &&& s.gpr c : Nat) : Int) - 1) % (TWO_32 : Int)).toNat)

/-- The code points of the line printed by opcode 7:
`print("universal machine stops computation.")`. -/
def haltMsg : List Nat :=
  "universal machine stops computation.\n".toList.map Char.toNat

/-- Opcode 7, `halt`: prints its diagnostic line to stdout; the dispatch
loop then stops because the operator name is HALT. -/
def Um.halt (s : Um) (_a _b _c : Nat) : Option Um :=
  some { s with out := s.out ++ haltMsg }

/-- Opcode 8, `allocation`: `self.platter[self.nextAlloc] = [0]*self.gpr[c];
self.gpr[b] = self.nextAlloc; self.nextAlloc += 1`. -/
def Um.allocation (s : Um) (_a b c : Nat) : Option Um :=
  some { (s.setReg b s.nextAlloc) with
    platter := (fun i =>
      if i = s.nextAlloc then some (List.replicate (s.gpr c) 0) else s.platter i),
    nextAlloc := s.nextAlloc + 1 }

/-- Opcode 9, `abandonment`: `del self.platter[self.gpr[c]]`; deleting a
key that is absent raises KeyError, a trap.  There is no check that the
identifier differs from 0. -/
def Um.abandonment (s : Um) (_a _b c : Nat) : Option Um :=
  match s.platter (s.gpr c) with
  | none => none
  | some _ => some { s with platter :=
      (fun i => if i = s.gpr c then none else s.platter i) }

/-- Opcode 10, `output`: `print(chr(self.gpr[c]), end='')`.  Python's
`chr` accepts every code point below `0x110000` and raises ValueError
(a trap) at or above it; there is no check against 255.  (Failures the
console encoder itself could raise, e.g. for unpaired surrogates, are
outside the model.) -/
def Um.output (s : Um) (_a _b c : Nat) : Option Um :=
  if s.gpr c < 1114112 then some { s with out := s.out ++ [s.gpr c] }
  else none

/-- Opcode 11, `input`: reads one character; `'\r'` is normalized to
`'\n'`; the byte 4 (Ctrl-D) raises EOFError, caught to store the EOF
sentinel `TWO_32 - 1` in register `c`; any other character is echoed
with `print(ch, end="")` and stored in register `c`.  The `while True`
loop breaks after a single iteration on every path.  On exhausted stdin
`getch()` returns the empty string and `ord('')` raises an uncaught
TypeError, a trap. -/
def Um.inputOp (s : Um) (_a _b c : Nat) : Option Um :=
  match s.inp with
  | [] => none
  | ch :: rest =>
    if ch = 4 then some ({ s with inp := rest }.setReg c (TWO_32 - 1))
    else some (Um.setReg
      { s with inp := rest, out := s.out ++ [if ch = 13 then 10 else ch] }
      c (if ch = 13 then 10 else ch))

/-- Opcode 12, `loadProgram`: when `self.gpr[b] != 0` the array at that
identifier (asserted to exist; a failed assertion is a trap) is copied
into the '0' slot by `list(...)`; in both cases `self.finger = self.gpr[c]`. -/
def Um.loadProgram (s : Um) (_a b c : Nat) : Option Um :=
  if s.gpr b ≠ 0 then
    match s.platter (s.gpr b) with
    | none => none
    | some arr => some { s with
        platter := (fun i => if i = 0 then some arr else s.platter i),
        finger := s.gpr c }
  else some { s with finger := s.gpr c }

/-- Opcode 13, `orthography`: `self.gpr[a] = val` where `val` is the
25-bit field delivered in the second decoded slot. -/
def Um.orthography (s : Um) (a val : Nat) : Option Um :=
  some (s.setReg a val)

/-- `OPCODE2FN[operator](self, a, b, c)`: the table holds fourteen
entries; an operator above 13 (possible since the opcode field is four
bits) is an IndexError, a trap.  Operator 13 is the only one decoded
with `c = None`. -/
def Um.dispatch (s : Um) (op a b : Nat) (c : Option Nat) : Option Um :=
  match c with
  | none => if op = 13 then s.orthography a b else none
  | some c =>
    if op = 0 then s.conditionalMove a b c
    else if op = 1 then s.arrayIndex a b c
    else if op = 2 then s.arrayAmendment a b c
    else if op = 3 then s.addition a b c
    else if op = 4 then s.multiplication a b c
    else if op = 5 then s.division a b c
    else if op = 6 then s.notAnd a b c
    else if op = 7 then s.halt a b c
    else if op = 8 then s.allocation a b c
    else if op = 9 then s.abandonment a b c
    else if op = 10 then s.output a b c
    else if op = 11 then s.inputOp a b c
    else if op = 12 then s.loadProgram a b c
    else none

/-- `Um.spinCycle`: fetch the platter at the finger from the '0' array
(the assertion `finger < len(self.platter[0])` failing, or the '0' key
being absent, is a trap), decode it, advance the finger, dispatch, and
report the operator that ran. -/
def Um.spinCycle (s : Um) : Option (Nat × Um) :=
  match s.platter 0 with
  | none => none
  | some prog =>
    match prog[s.finger]? with
    | none => none
    | some i =>
      match decodeInstruction i with
      | (op, a, b, c) =>
        match Um.dispatch { s with finger := s.finger + 1 } op a b c with
        | none => none
        | some s2 => some (op, s2)

/-- `Um.simulate`: spin until the dispatched operator is HALT (7).
Fuel-indexed; `none` means a trap occurred or the fuel ran out before a
HALT. -/
def Um.simulate : Nat → Um → Option Um
  | 0, _ => none
  | fuel + 1, s =>
    match s.spinCycle with
    | none => none
    | some (op, s2) => if op = 7 then some s2 else Um.simulate fuel s2

/-- The pool invariant maintained by the machine: the allocation counter
is at least 1 and strictly above every identifier present in the pool. -/
def Inv (s : Um) : Prop :=
  1 ≤ s.nextAlloc ∧ ∀ i, s.platter i ≠ none → i < s.nextAlloc

end UMSim

namespace UMSim

/-! ### Helper lemmas shared between claims -/

/-- Register writes do not affect the pool invariant. -/
lemma Inv_setReg (s : Um) (r v : Nat) : Inv (s.setReg r v) = Inv s := rfl

/-- The initial machine satisfies the pool invariant. -/
lemma Inv_initUm (code stdin : List Nat) : Inv (initUm code stdin) := by
  refine ⟨le_refl 1, fun i h => ?_⟩
  by_cases h0 : i = 0
  · simp [initUm, h0]
  · simp [initUm, h0] at h

/-! ### C6: encode/decode round trip -/

/-- C6: for every opcode in 0..12 and registers A, B, C in 0..7, decoding
the standard-shape encoding returns the same fields; for every A in 0..7
and immediate below 2^25, decoding the special-shape encoding returns
opcode 13, register A, and the immediate. -/
theorem encode_decode_roundtrip :
    (∀ op a b c : Nat, op ≤ 12 → a < 8 → b < 8 → c < 8 →
      decodeInstruction (encodeInstruction op a b c) = (op, a, b, some c)) ∧
    (∀ a v : Nat, a < 8 → v < 2 ^ 25 →
      decodeInstruction (encodeValue 13 a v) = (13, a, v, none)) := by
  constructor
  · intro op a b c hop ha hb hc
    have h0 : bits (encodeInstruction op a b c) 0 4 = op := by
      simp only [bits, encodeInstruction, WORDSIZE]
      norm_num
      omega
    simp only [decodeInstruction, h0]
    rw [if_neg (by omega)]
    simp only [Prod.mk.injEq, Option.some.injEq, bits, encodeInstruction, WORDSIZE]
    norm_num
    refine ⟨by omega, by omega, by omega⟩
  · intro a v ha hv
    have h0 : bits (encodeValue 13 a v) 0 4 = 13 := by
      simp only [bits, encodeValue, WORDSIZE]
      norm_num
      omega
    simp only [decodeInstruction, h0, if_pos rfl]
    simp only [Prod.mk.injEq, bits, encodeValue, WORDSIZE]
    norm_num
    refine ⟨by omega, by omega⟩

/-- Witness for C6 at concrete fields. -/
theorem encode_decode_roundtrip_witness :
    decodeInstruction (encodeInstruction 10 1 2 3) = (10, 1, 2, some 3) ∧
    decodeInstruction (encodeValue 13 2 65) = (13, 2, 65, none) :=
  ⟨encode_decode_roundtrip.1 10 1 2 3 (by norm_num) (by norm_num) (by norm_num)
      (by norm_num),
    encode_decode_roundtrip.2 2 65 (by norm_num) (by norm_num)⟩

end UMSim

namespace UMSim

/-! ### C1: the LPROG clone is deep -/

/-- C1: when register `b` holds a live nonzero identifier `id`, LPROG
replaces the '0' array with a copy of the array at `id`, and afterwards
an ASTORE addressed to the '0' array leaves the array at `id` untouched
while an ASTORE addressed to `id` leaves the '0' array untouched. -/
theorem lprog_deep_copy (s : Um) (a b c id : Nat)
    (hb : s.gpr b = id) (h0 : id ≠ 0) (s' : Um)
    (hlp : s.loadProgram a b c = some s') :
    s'.platter 0 = s.platter id ∧
    (∀ a' b' c' s'', s'.gpr a' = 0 → s'.arrayAmendment a' b' c' = some s'' →
      s''.platter id = s'.platter id) ∧
    (∀ a' b' c' s'', s'.gpr a' = id → s'.arrayAmendment a' b' c' = some s'' →
      s''.platter 0 = s'.platter 0) := by
  have hmut : ∀ (t t' : Um) (a' b' c' j : Nat), t.arrayAmendment a' b' c' = some t' →
      j ≠ t.gpr a' → t'.platter j = t.platter j := by
    intro t t' a' b' c' j hstep hj
    unfold Um.arrayAmendment at hstep
    split at hstep
    · exact absurd hstep (by simp)
    · split at hstep
      · simp only [Option.some.injEq] at hstep
        subst hstep
        simp [hj]
      · exact absurd hstep (by simp)
  unfold Um.loadProgram at hlp
  rw [hb, if_pos h0] at hlp
  constructor
  · split at hlp
    · exact absurd hlp (by simp)
    · rename_i arr harr
      simp only [Option.some.injEq] at hlp
      subst hlp
      simp [harr]
  · constructor
    · intro a' b' c' s'' hz hstep
      exact hmut s' s'' a' b' c' id hstep (by rw [hz]; exact h0)
    · intro a' b' c' s'' hid hstep
      exact hmut s' s'' a' b' c' 0 hstep (by rw [hid]; exact fun h => h0 h.symm)

/-- Concrete state for the C1 witness: the pool holds the program `[0, 0]`
at identifier 0 and `[5, 6]` at identifier 1; register 3 holds 1. -/
def c1State : Um :=
  { platter := (fun i => if i = 0 then some [0, 0]
      else if i = 1 then some [5, 6] else none)
    finger := 0
    nextAlloc := 2
    gpr := (fun i => if i = 3 then 1 else 0)
    inp := []
    out := [] }

/-- The C1 witness state after `loadProgram` with `b = 3`. -/
def c1After : Um := (c1State.loadProgram 0 3 0).getD c1State

/-- The C1 witness state after a further ASTORE to the '0' array. -/
def c1Amend0 : Um := (c1After.arrayAmendment 0 0 0).getD c1After

/-- The C1 witness state after a further ASTORE to the array at 1. -/
def c1Amend1 : Um := (c1After.arrayAmendment 3 0 0).getD c1After

/-- Witness for C1 at the concrete state `c1State`. -/
theorem lprog_deep_copy_witness :
    c1After.platter 0 = c1State.platter 1 ∧
    c1Amend0.platter 1 = c1After.platter 1 ∧
    c1Amend1.platter 0 = c1After.platter 0 :=
  have h := lprog_deep_copy c1State 0 3 0 1 (by decide) (by decide) c1After (by rfl)
  ⟨h.1, h.2.1 0 0 0 c1Amend0 (by decide) (by rfl), h.2.2 3 0 0 c1Amend1 (by decide) (by rfl)⟩

/-! ### C2: LPROG finger semantics -/

/-- C2: a spin cycle whose fetched instruction decodes to LPROG leaves
the execution finger exactly at the value of register `c` at dispatch
time — the operator's write wins over the loop's pre-increment, so the
next fetch reads offset `R[C]` of the new '0' array, not `R[C] + 1`. -/
theorem lprog_finger (s : Um) (prog : List Nat) (i a b c : Nat)
    (hprog : s.platter 0 = some prog)
    (hfetch : prog[s.finger]? = some i)
    (hdec : decodeInstruction i = (12, a, b, some c))
    (r : Nat) (s' : Um) (hrun : s.spinCycle = some (r, s')) :
    r = 12 ∧ s'.finger = s.gpr c := by
  unfold Um.spinCycle at hrun
  rw [hprog] at hrun
  simp only [hfetch, hdec] at hrun
  simp only [Um.dispatch] at hrun
  norm_num at hrun
  split at hrun
  · exact absurd hrun (by simp)
  · rename_i s2 heq
    simp only [Option.some.injEq, Prod.mk.injEq] at hrun
    obtain ⟨hr, hs⟩ := hrun
    subst hs
    refine ⟨hr.symm, ?_⟩
    unfold Um.loadProgram at heq
    split at heq
    · split at heq
      · exact absurd heq (by simp)
      · simp only [Option.some.injEq] at heq
        subst heq
        rfl
    · simp only [Option.some.injEq] at heq
      subst heq
      rfl

/-- Concrete machine for the C2 witness: a single LPROG instruction with
`b = 2` (register 2 is 0, so no copy) and `c = 3`. -/
def c2s : Um := initUm [encodeInstruction 12 1 2 3] []

/-- The C2 witness state after one spin cycle. -/
def c2After : Um := (c2s.spinCycle.getD (0, c2s)).2

/-- Witness for C2 at the concrete machine `c2s`. -/
theorem lprog_finger_witness : c2After.finger = c2s.gpr 3 :=
  (lprog_finger c2s [encodeInstruction 12 1 2 3] (encodeInstruction 12 1 2 3)
    1 2 3 (by decide) (by decide) (by decide) 12 c2After (by rfl)).2

end UMSim

namespace UMSim

/-! ### C3: what opcode 12 does (and does not do) to the pool -/

/-- Concrete state for the C3 counterexample: pool entries at 0 and 1,
allocation counter 5, register 1 holding the live identifier 1. -/
def c3State : Um :=
  { platter := (fun i => if i = 0 then some [0]
      else if i = 1 then some [9] else none)
    finger := 0
    nextAlloc := 5
    gpr := (fun i => if i = 1 then 1 else 0)
    inp := []
    out := [] }

/-- C3 counterexample: executing opcode 12 with the nonzero live
identifier 1 in register B does NOT clear the rest of the pool and does
NOT reset the allocation counter: from `c3State` (counter 5, entry at
identifier 1) the result still has counter 5 and the entry at 1. -/
theorem lprog_no_reset_cex :
    (c3State.loadProgram 0 1 2).map (fun t => (t.nextAlloc, t.platter 1))
        = some (5, some [9]) ∧
    (c3State.loadProgram 0 1 2).map (fun t => (t.nextAlloc, t.platter 1))
        ≠ some (1, none) := by
  constructor
  · rfl
  · decide

/-- C3 amended: opcode 12 with a nonzero identifier in register B
replaces the '0' array with a copy of the array at that identifier and
sets the finger from register C; every other pool entry and the
allocation counter are left unchanged (the pool is not cleared and
`nextAlloc` is not reset to 1). -/
theorem lprog_preserves_pool (s : Um) (a b c : Nat) (hb : s.gpr b ≠ 0)
    (s' : Um) (hlp : s.loadProgram a b c = some s') :
    s'.platter 0 = s.platter (s.gpr b) ∧
    (∀ i, i ≠ 0 → s'.platter i = s.platter i) ∧
    s'.nextAlloc = s.nextAlloc ∧
    s'.finger = s.gpr c := by
  unfold Um.loadProgram at hlp
  rw [if_pos hb] at hlp
  split at hlp
  · exact absurd hlp (by simp)
  · rename_i arr harr
    simp only [Option.some.injEq] at hlp
    subst hlp
    refine ⟨by simp [harr], fun i hi => by simp [hi], rfl, rfl⟩

/-- The C3 witness state after `loadProgram` from `c3State`. -/
def c3After : Um := (c3State.loadProgram 0 1 2).getD c3State

/-- Witness for the amended C3 at the concrete state `c3State`. -/
theorem lprog_preserves_pool_witness :
    c3After.platter 0 = c3State.platter (c3State.gpr 1) ∧
    c3After.platter 1 = c3State.platter 1 ∧
    c3After.nextAlloc = c3State.nextAlloc ∧
    c3After.finger = c3State.gpr 2 :=
  have h := lprog_preserves_pool c3State 0 1 2 (by decide) c3After (by rfl)
  ⟨h.1, h.2.1 1 (by decide), h.2.2.1, h.2.2.2⟩

/-! ### C4: FREE of identifier 0 -/

/-- Concrete state for the C4 counterexample: only the '0' array is in
the pool and every register is 0. -/
def c4State : Um :=
  { platter := (fun i => if i = 0 then some [7] else none)
    finger := 0
    nextAlloc := 1
    gpr := (fun _ => 0)
    inp := []
    out := [] }

/-- C4 counterexample: FREE (opcode 9) with register C equal to 0 is NOT
a trap: from `c4State` the operation succeeds (`del self.platter[0]`
finds the key) and removes the '0' array from the pool. -/
theorem free_zero_no_trap_cex :
    (c4State.abandonment 0 0 0).map (fun t => t.platter 0) = some none ∧
    c4State.abandonment 0 0 0 ≠ none := by
  constructor
  · rfl
  · intro h
    simp [Um.abandonment, c4State] at h

/-- C4 amended: FREE traps (KeyError) exactly when the identifier in
register C is not a key of the pool; since identifier 0 is normally
present, FREE with `R[C] = 0` succeeds and removes the '0' array — the
code never checks for identifier 0. -/
theorem abandonment_semantics (s : Um) (a b c : Nat) :
    (s.platter (s.gpr c) = none → s.abandonment a b c = none) ∧
    (∀ s', s.abandonment a b c = some s' →
      s'.platter (s.gpr c) = none ∧ ∀ i, i ≠ s.gpr c → s'.platter i = s.platter i) := by
  constructor
  · intro h
    unfold Um.abandonment
    rw [h]
  · intro s' h
    unfold Um.abandonment at h
    split at h
    · exact absurd h (by simp)
    · simp only [Option.some.injEq] at h
      subst h
      refine ⟨by simp, fun i hi => by simp [hi]⟩

/-- The C4 witness state after freeing identifier 0 from `c4State`. -/
def c4After : Um := (c4State.abandonment 0 0 0).getD c4State

/-- Witness for the amended C4: freeing identifier 0 from `c4State`
succeeds and removes the '0' array, and a second FREE from the
resulting state (where key 0 is gone) traps. -/
theorem abandonment_semantics_witness :
    c4After.platter 0 = none ∧
    c4After.platter 2 = c4State.platter 2 ∧
    c4After.abandonment 0 0 0 = none :=
  have h := (abandonment_semantics c4State 0 0 0).2 c4After (by rfl)
  ⟨h.1, h.2 2 (by decide), (abandonment_semantics c4After 0 0 0).1 (by rfl)⟩

/-! ### C5: OUTPUT above 255 -/

/-- Concrete state for the C5 counterexample: register 2 holds 256. -/
def c5State : Um :=
  { platter := (fun i => if i = 0 then some [] else none)
    finger := 0
    nextAlloc := 1
    gpr := (fun i => if i = 2 then 256 else 0)
    inp := []
    out := [] }

/-- Concrete state for the C5 witness trap case: register 2 holds
`0x110000`, the first code point rejected by Python's `chr`. -/
def c5Big : Um :=
  { platter := (fun i => if i = 0 then some [] else none)
    finger := 0
    nextAlloc := 1
    gpr := (fun i => if i = 2 then 1114112 else 0)
    inp := []
    out := [] }

/-- C5 counterexample: OUTPUT (opcode 10) with `R[C] = 256 > 255` is NOT
a trap: the code prints `chr(256)` and execution continues; from
`c5State` the operation succeeds and appends code point 256 to the
console. -/
theorem output_256_no_trap_cex :
    (c5State.output 0 0 2).map Um.out = some [256] ∧
    c5State.output 0 0 2 ≠ none := by
  constructor
  · rfl
  · intro h
    simp [Um.output, c5State] at h

/-- C5 amended: OUTPUT emits the code point `R[C]` (via `chr`) for every
`R[C] < 0x110000` — in particular every byte 0..255, but also every
value 256..0x10FFFF without any trap — and traps (ValueError from
`chr`) only for `R[C] ≥ 0x110000`. -/
theorem output_semantics (s : Um) (a b c : Nat) :
    (s.gpr c < 1114112 →
      s.output a b c = some { s with out := s.out ++ [s.gpr c] }) ∧
    (1114112 ≤ s.gpr c → s.output a b c = none) := by
  constructor
  · intro h
    unfold Um.output
    rw [if_pos h]
  · intro h
    unfold Um.output
    rw [if_neg (by omega)]

/-- Witness for the amended C5: from `c5State` the value 256 is emitted,
and from `c5Big` the value `0x110000` traps. -/
theorem output_semantics_witness :
    c5State.output 0 0 2 = some { c5State with out := c5State.out ++ [c5State.gpr 2] } ∧
    c5Big.output 0 0 2 = none :=
  ⟨(output_semantics c5State 0 0 2).1 (by decide),
    (output_semantics c5Big 0 0 2).2 (by decide)⟩

end UMSim

namespace UMSim

/-! ### C7: ALLOC freshness -/

/-- A sequence of ASTORE steps (arbitrary register arguments), applied
left to right; `none` if any of them traps. -/
def applyPuts : List (Nat × Nat × Nat) → Um → Option Um
  | [], s => some s
  | (a, b, c) :: ps, s =>
    match s.arrayAmendment a b c with
    | none => none
    | some s2 => applyPuts ps s2

/-- An ASTORE step changes neither the allocation counter nor the
registers. -/
lemma arrayAmendment_frame (s s' : Um) (a b c : Nat)
    (h : s.arrayAmendment a b c = some s') :
    s'.nextAlloc = s.nextAlloc ∧ s'.gpr = s.gpr := by
  unfold Um.arrayAmendment at h
  split at h
  · exact absurd h (by simp)
  · split at h
    · simp only [Option.some.injEq] at h
      subst h
      exact ⟨rfl, rfl⟩
    · exact absurd h (by simp)

/-- A sequence of ASTORE steps changes neither the allocation counter
nor the registers. -/
lemma applyPuts_frame (ps : List (Nat × Nat × Nat)) (s t : Um)
    (h : applyPuts ps s = some t) :
    t.nextAlloc = s.nextAlloc ∧ t.gpr = s.gpr := by
  induction ps generalizing s with
  | nil =>
    simp only [applyPuts, Option.some.injEq] at h
    subst h
    exact ⟨rfl, rfl⟩
  | cons p ps ih =>
    obtain ⟨a, b, c⟩ := p
    simp only [applyPuts] at h
    split at h
    · exact absurd h (by simp)
    · rename_i s2 hs2
      obtain ⟨h1, h2⟩ := arrayAmendment_frame s s2 a b c hs2
      obtain ⟨h3, h4⟩ := ih s2 h
      exact ⟨h3.trans h1, h4.trans h2⟩

/-- ALLOC places the current counter in register `b` and installs the
fresh all-zero array there. -/
lemma allocation_eq (s : Um) (a b c : Nat) (s' : Um)
    (h : s.allocation a b c = some s') :
    s'.gpr b = s.nextAlloc ∧
    s'.platter s.nextAlloc = some (List.replicate (s.gpr c) 0) ∧
    s'.nextAlloc = s.nextAlloc + 1 := by
  unfold Um.allocation at h
  simp only [Option.some.injEq] at h
  subst h
  refine ⟨?_, by simp, rfl⟩
  simp [Um.setReg]

/-- C7: in a state satisfying the pool invariant, ALLOC returns a
nonzero identifier that is not live, whose array has `R[C]` elements all
zero; and after any sequence of ASTOREs a further ALLOC returns a
distinct identifier whose array is again all zero. -/
theorem allocation_fresh (s : Um) (a b c : Nat) (hInv : Inv s) (s' : Um)
    (halloc : s.allocation a b c = some s') :
    s'.gpr b ≠ 0 ∧
    s.platter (s'.gpr b) = none ∧
    s'.platter (s'.gpr b) = some (List.replicate (s.gpr c) 0) ∧
    (∀ ps t, applyPuts ps s' = some t →
      ∀ a' b' c' t', t.allocation a' b' c' = some t' →
        t'.gpr b' ≠ s'.gpr b ∧
        t'.platter (t'.gpr b') = some (List.replicate (t.gpr c') 0)) := by
  obtain ⟨hb, hplat, hnext⟩ := allocation_eq s a b c s' halloc
  obtain ⟨hInv1, hInv2⟩ := hInv
  refine ⟨by omega, ?_, by rw [hb]; exact hplat, ?_⟩
  · rw [hb]
    by_contra h
    have := hInv2 s.nextAlloc h
    omega
  · intro ps t hps a' b' c' t' halloc'
    obtain ⟨hfr1, _⟩ := applyPuts_frame ps s' t hps
    obtain ⟨hb', hplat', _⟩ := allocation_eq t a' b' c' t' halloc'
    constructor
    · rw [hb', hb, hfr1, hnext]
      omega
    · rw [hb']
      exact hplat'

/-- The C7 witness machine: the '0' array is `[0]`, registers start 0. -/
def c7s : Um := initUm [0] []

/-- The C7 witness state after one ALLOC (length `gpr 2 = 0`). -/
def c7s1 : Um := (c7s.allocation 0 1 2).getD c7s

/-- The C7 witness state after a second ALLOC. -/
def c7s2 : Um := (c7s1.allocation 0 1 2).getD c7s1

/-- Witness for C7 from `c7s` with an empty sequence of ASTOREs. -/
theorem allocation_fresh_witness :
    c7s1.gpr 1 ≠ 0 ∧
    c7s.platter (c7s1.gpr 1) = none ∧
    c7s1.platter (c7s1.gpr 1) = some (List.replicate (c7s.gpr 2) 0) ∧
    c7s2.gpr 1 ≠ c7s1.gpr 1 ∧
    c7s2.platter (c7s2.gpr 1) = some (List.replicate (c7s1.gpr 2) 0) :=
  have h := allocation_fresh c7s 0 1 2 (Inv_initUm [0] []) c7s1 (by rfl)
  have h2 := h.2.2.2 [] c7s1 (by rfl) 0 1 2 c7s2 (by rfl)
  ⟨h.1, h.2.1, h.2.2.1, h2.1, h2.2⟩

end UMSim

namespace UMSim

/-! ### C8: the "output A" program -/

/-- The three-instruction program from the spec's scenario:
`[encode_load(2, 65), encode_std(OUTPUT, 0, 0, 2), encode_std(HALT, 0, 0, 0)]`. -/
def c8prog : List Nat :=
  [encodeValue 13 2 65, encodeInstruction 10 0 0 2, encodeInstruction 7 0 0 0]

/-- C8 counterexample: running the program does halt, but the console
receives MORE than the single byte 0x41: the halt operator's
`print("universal machine stops computation.")` also goes to stdout, so
the final console trace is code point 65 followed by that line. -/
theorem outputA_console_cex :
    (Um.simulate 3 (initUm c8prog [])).map Um.out = some (65 :: haltMsg) ∧
    (Um.simulate 3 (initUm c8prog [])).map Um.out ≠ some [65] := by
  constructor
  · rfl
  · decide

/-- C8 amended: the three-instruction program emits the byte 0x41 as its
only OUTPUT and then halts; the complete console trace is 0x41 followed
by the halt operator's diagnostic line. -/
theorem outputA_run :
    (Um.simulate 3 (initUm c8prog [])).map Um.out = some (65 :: haltMsg) := by
  rfl

/-! ### C10: INPUT echoes the character it reads -/

/-- C10: an INPUT that reads a character (not EOF, i.e. the stream is
nonempty and the byte is not 4) appends the (CR-normalized) character to
the console output — an echo not produced by any OUTPUT instruction —
and stores the same value in register C. -/
theorem input_echoes (s : Um) (a b c ch : Nat) (rest : List Nat)
    (hin : s.inp = ch :: rest) (hch : ch ≠ 4) (s' : Um)
    (hrun : s.inputOp a b c = some s') :
    s'.out = s.out ++ [if ch = 13 then 10 else ch] ∧
    s'.gpr c = (if ch = 13 then 10 else ch) ∧
    s'.inp = rest := by
  unfold Um.inputOp at hrun
  rw [hin] at hrun
  simp only [if_neg hch, Option.some.injEq] at hrun
  subst hrun
  refine ⟨rfl, ?_, rfl⟩
  simp [Um.setReg]

/-- The C10 witness machine: empty program array, stdin holding the
single byte 65. -/
def c10s : Um := initUm [] [65]

/-- The C10 witness state after one INPUT into register 2. -/
def c10After : Um := (c10s.inputOp 0 0 2).getD c10s

/-- Witness for C10: reading the byte 65 echoes 65 to the console and
stores 65 in register 2. -/
theorem input_echoes_witness :
    c10After.out = c10s.out ++ [if 65 = 13 then 10 else 65] ∧
    c10After.gpr 2 = (if 65 = 13 then 10 else 65) ∧
    c10After.inp = [] :=
  input_echoes c10s 0 0 2 65 [] (by rfl) (by decide) c10After (by rfl)

end UMSim

namespace UMSim

/-! ### C9: the pool invariant and identifier non-reuse -/

/-- MOVEIF preserves the pool invariant and the counter. -/
lemma inv_conditionalMove (s : Um) (a b c : Nat) (s' : Um)
    (h : s.conditionalMove a b c = some s') (hInv : Inv s) :
    Inv s' ∧ s.nextAlloc ≤ s'.nextAlloc := by
  unfold Um.conditionalMove at h
  simp only [Option.some.injEq] at h
  subst h
  by_cases hc : s.gpr c ≠ 0
  · rw [if_pos hc]
    exact ⟨hInv, le_refl _⟩
  · rw [if_neg hc]
    exact ⟨hInv, le_refl _⟩

/-- INDEX preserves the pool invariant and the counter. -/
lemma inv_arrayIndex (s : Um) (a b c : Nat) (s' : Um)
    (h : s.arrayIndex a b c = some s') (hInv : Inv s) :
    Inv s' ∧ s.nextAlloc ≤ s'.nextAlloc := by
  unfold Um.arrayIndex at h
  split at h
  · exact absurd h (by simp)
  · split at h
    · exact absurd h (by simp)
    · simp only [Option.some.injEq] at h
      subst h
      exact ⟨hInv, le_refl _⟩

/-- ASTORE preserves the pool invariant and the counter. -/
lemma inv_arrayAmendment (s : Um) (a b c : Nat) (s' : Um)
    (h : s.arrayAmendment a b c = some s') (hInv : Inv s) :
    Inv s' ∧ s.nextAlloc ≤ s'.nextAlloc := by
  unfold Um.arrayAmendment at h
  split at h
  · exact absurd h (by simp)
  · rename_i arr harr
    split at h
    · simp only [Option.some.injEq] at h
      subst h
      obtain ⟨h1, h2⟩ := hInv
      refine ⟨⟨h1, ?_⟩, le_refl _⟩
      intro i hi
      by_cases hie : i = s.gpr a
      · exact h2 i (by rw [hie, harr]; simp)
      · have hx : (if i = s.gpr a then some (arr.set (s.gpr b) (s.gpr c))
            else s.platter i) ≠ none := hi
        exact h2 i (by simpa [hie] using hx)
    · exact absurd h (by simp)

/-- ADD preserves the pool invariant and the counter. -/
lemma inv_addition (s : Um) (a b c : Nat) (s' : Um)
    (h : s.addition a b c = some s') (hInv : Inv s) :
    Inv s' ∧ s.nextAlloc ≤ s'.nextAlloc := by
  unfold Um.addition at h
  simp only [Option.some.injEq] at h
  subst h
  exact ⟨hInv, le_refl _⟩

/-- MULT preserves the pool invariant and the counter. -/
lemma inv_multiplication (s : Um) (a b c : Nat) (s' : Um)
    (h : s.multiplication a b c = some s') (hInv : Inv s) :
    Inv s' ∧ s.nextAlloc ≤ s'.nextAlloc := by
  unfold Um.multiplication at h
  simp only [Option.some.injEq] at h
  subst h
  exact ⟨hInv, le_refl _⟩

/-- DIV preserves the pool invariant and the counter. -/
lemma inv_division (s : Um) (a b c : Nat) (s' : Um)
    (h : s.division a b c = some s') (hInv : Inv s) :
    Inv s' ∧ s.nextAlloc ≤ s'.nextAlloc := by
  unfold Um.division at h
  split at h
  · exact absurd h (by simp)
  · simp only [Option.some.injEq] at h
    subst h
    exact ⟨hInv, le_refl _⟩

/-- NAND preserves the pool invariant and the counter. -/
lemma inv_notAnd (s : Um) (a b c : Nat) (s' : Um)
    (h : s.notAnd a b c = some s') (hInv : Inv s) :
    Inv s' ∧ s.nextAlloc ≤ s'.nextAlloc := by
  unfold Um.notAnd at h
  simp only [Option.some.injEq] at h
  subst h
  exact ⟨hInv, le_refl _⟩

/-- HALT preserves the pool invariant and the counter. -/
lemma inv_halt (s : Um) (a b c : Nat) (s' : Um)
    (h : s.halt a b c = some s') (hInv : Inv s) :
    Inv s' ∧ s.nextAlloc ≤ s'.nextAlloc := by
  unfold Um.halt at h
  simp only [Option.some.injEq] at h
  subst h
  exact ⟨hInv, le_refl _⟩

/-- ALLOC preserves the pool invariant and never decreases the counter. -/
lemma inv_allocation (s : Um) (a b c : Nat) (s' : Um)
    (h : s.allocation a b c = some s') (hInv : Inv s) :
    Inv s' ∧ s.nextAlloc ≤ s'.nextAlloc := by
  unfold Um.allocation at h
  simp only [Option.some.injEq] at h
  subst h
  obtain ⟨h1, h2⟩ := hInv
  refine ⟨⟨?_, ?_⟩, ?_⟩
  · show 1 ≤ s.nextAlloc + 1
    omega
  · intro i hi
    show i < s.nextAlloc + 1
    by_cases hie : i = s.nextAlloc
    · omega
    · have hx : (if i = s.nextAlloc then some (List.replicate (s.gpr c) 0)
          else s.platter i) ≠ none := hi
      have := h2 i (by simpa [hie] using hx)
      omega
  · show s.nextAlloc ≤ s.nextAlloc + 1
    omega

/-- FREE preserves the pool invariant and the counter. -/
lemma inv_abandonment (s : Um) (a b c : Nat) (s' : Um)
    (h : s.abandonment a b c = some s') (hInv : Inv s) :
    Inv s' ∧ s.nextAlloc ≤ s'.nextAlloc := by
  unfold Um.abandonment at h
  split at h
  · exact absurd h (by simp)
  · simp only [Option.some.injEq] at h
    subst h
    obtain ⟨h1, h2⟩ := hInv
    refine ⟨⟨h1, ?_⟩, le_refl _⟩
    intro i hi
    have hx : (if i = s.gpr c then none else s.platter i) ≠ none := hi
    by_cases hie : i = s.gpr c
    · simp [hie] at hx
    · exact h2 i (by simpa [hie] using hx)

/-- OUTPUT preserves the pool invariant and the counter. -/
lemma inv_output (s : Um) (a b c : Nat) (s' : Um)
    (h : s.output a b c = some s') (hInv : Inv s) :
    Inv s' ∧ s.nextAlloc ≤ s'.nextAlloc := by
  unfold Um.output at h
  split at h
  · simp only [Option.some.injEq] at h
    subst h
    exact ⟨hInv, le_refl _⟩
  · exact absurd h (by simp)

/-- INPUT preserves the pool invariant and the counter. -/
lemma inv_inputOp (s : Um) (a b c : Nat) (s' : Um)
    (h : s.inputOp a b c = some s') (hInv : Inv s) :
    Inv s' ∧ s.nextAlloc ≤ s'.nextAlloc := by
  unfold Um.inputOp at h
  split at h
  · exact absurd h (by simp)
  · split at h
    · simp only [Option.some.injEq] at h
      subst h
      exact ⟨hInv, le_refl _⟩
    · simp only [Option.some.injEq] at h
      subst h
      exact ⟨hInv, le_refl _⟩

/-- LPROG preserves the pool invariant and the counter. -/
lemma inv_loadProgram (s : Um) (a b c : Nat) (s' : Um)
    (h : s.loadProgram a b c = some s') (hInv : Inv s) :
    Inv s' ∧ s.nextAlloc ≤ s'.nextAlloc := by
  unfold Um.loadProgram at h
  split at h
  · split at h
    · exact absurd h (by simp)
    · rename_i arr harr
      simp only [Option.some.injEq] at h
      subst h
      obtain ⟨h1, h2⟩ := hInv
      refine ⟨⟨h1, ?_⟩, le_refl _⟩
      intro i hi
      by_cases hi0 : i = 0
      · subst hi0
        show 0 < s.nextAlloc
        omega
      · have hx : (if i = 0 then some arr else s.platter i) ≠ none := hi
        exact h2 i (by simpa [hi0] using hx)
  · simp only [Option.some.injEq] at h
    subst h
    exact ⟨hInv, le_refl _⟩

/-- LOAD preserves the pool invariant and the counter. -/
lemma inv_orthography (s : Um) (a v : Nat) (s' : Um)
    (h : s.orthography a v = some s') (hInv : Inv s) :
    Inv s' ∧ s.nextAlloc ≤ s'.nextAlloc := by
  unfold Um.orthography at h
  simp only [Option.some.injEq] at h
  subst h
  exact ⟨hInv, le_refl _⟩

/-- Every dispatched operator preserves the pool invariant and never
decreases the counter. -/
lemma dispatch_inv (s : Um) (op a b : Nat) (c : Option Nat) (s' : Um)
    (h : s.dispatch op a b c = some s') (hInv : Inv s) :
    Inv s' ∧ s.nextAlloc ≤ s'.nextAlloc := by
  rcases c with _ | c
  · simp only [Um.dispatch] at h
    split at h
    · exact inv_orthography _ _ _ _ h hInv
    · exact absurd h (by simp)
  · simp only [Um.dispatch] at h
    by_cases h0 : op = 0
    · rw [if_pos h0] at h
      exact inv_conditionalMove _ _ _ _ _ h hInv
    rw [if_neg h0] at h
    by_cases h1 : op = 1
    · rw [if_pos h1] at h
      exact inv_arrayIndex _ _ _ _ _ h hInv
    rw [if_neg h1] at h
    by_cases h2 : op = 2
    · rw [if_pos h2] at h
      exact inv_arrayAmendment _ _ _ _ _ h hInv
    rw [if_neg h2] at h
    by_cases h3 : op = 3
    · rw [if_pos h3] at h
      exact inv_addition _ _ _ _ _ h hInv
    rw [if_neg h3] at h
    by_cases h4 : op = 4
    · rw [if_pos h4] at h
      exact inv_multiplication _ _ _ _ _ h hInv
    rw [if_neg h4] at h
    by_cases h5 : op = 5
    · rw [if_pos h5] at h
      exact inv_division _ _ _ _ _ h hInv
    rw [if_neg h5] at h
    by_cases h6 : op = 6
    · rw [if_pos h6] at h
      exact inv_notAnd _ _ _ _ _ h hInv
    rw [if_neg h6] at h
    by_cases h7 : op = 7
    · rw [if_pos h7] at h
      exact inv_halt _ _ _ _ _ h hInv
    rw [if_neg h7] at h
    by_cases h8 : op = 8
    · rw [if_pos h8] at h
      exact inv_allocation _ _ _ _ _ h hInv
    rw [if_neg h8] at h
    by_cases h9 : op = 9
    · rw [if_pos h9] at h
      exact inv_abandonment _ _ _ _ _ h hInv
    rw [if_neg h9] at h
    by_cases h10 : op = 10
    · rw [if_pos h10] at h
      exact inv_output _ _ _ _ _ h hInv
    rw [if_neg h10] at h
    by_cases h11 : op = 11
    · rw [if_pos h11] at h
      exact inv_inputOp _ _ _ _ _ h hInv
    rw [if_neg h11] at h
    by_cases h12 : op = 12
    · rw [if_pos h12] at h
      exact inv_loadProgram _ _ _ _ _ h hInv
    rw [if_neg h12] at h
    exact absurd h (by simp)

/-- One spin cycle preserves the pool invariant and never decreases the
counter. -/
lemma spinCycle_inv (s : Um) (r : Nat) (s' : Um)
    (h : s.spinCycle = some (r, s')) (hInv : Inv s) :
    Inv s' ∧ s.nextAlloc ≤ s'.nextAlloc := by
  unfold Um.spinCycle at h
  split at h
  · exact absurd h (by simp)
  · split at h
    · exact absurd h (by simp)
    · rename_i prog hprog i hi
      rcases hd : decodeInstruction i with ⟨op, a, b, copt⟩
      rw [hd] at h
      dsimp only [] at h
      split at h
      · exact absurd h (by simp)
      · rename_i s2 hs2
        simp only [Option.some.injEq, Prod.mk.injEq] at h
        obtain ⟨hr, hs⟩ := h
        subst hs
        exact dispatch_inv { s with finger := s.finger + 1 } op a b copt s2 hs2 hInv

/-- Iterated spin cycles (the dispatch loop without the HALT test). -/
def spinN : Nat → Um → Option Um
  | 0, s => some s
  | n + 1, s =>
    match s.spinCycle with
    | none => none
    | some (_, s2) => spinN n s2

/-- C9: the freshly constructed machine satisfies the pool invariant
(`nextAlloc` is strictly above every pool identifier); every spin cycle
preserves it and never decreases `nextAlloc`, and the same holds for any
number of cycles; and in any state an ALLOC returns exactly the current
counter — so an identifier freed earlier (it was in the pool, hence
below the counter at that time) is never returned by a later ALLOC. -/
theorem pool_invariant :
    (∀ code stdin, Inv (initUm code stdin)) ∧
    (∀ (s : Um) (r : Nat) (s' : Um), s.spinCycle = some (r, s') → Inv s →
      Inv s' ∧ s.nextAlloc ≤ s'.nextAlloc) ∧
    (∀ (n : Nat) (s t : Um), spinN n s = some t → Inv s →
      Inv t ∧ s.nextAlloc ≤ t.nextAlloc) ∧
    (∀ (s : Um) (id : Nat), id < s.nextAlloc →
      ∀ (a b c : Nat) (t : Um), s.allocation a b c = some t → t.gpr b ≠ id) := by
  refine ⟨Inv_initUm, spinCycle_inv, ?_, ?_⟩
  · intro n
    induction n with
    | zero =>
      intro s t h hInv
      simp only [spinN, Option.some.injEq] at h
      subst h
      exact ⟨hInv, le_refl _⟩
    | succ n ih =>
      intro s t h hInv
      simp only [spinN] at h
      split at h
      · exact absurd h (by simp)
      · rename_i r s2 hs2
        obtain ⟨hInv2, hle⟩ := spinCycle_inv s r s2 hs2 hInv
        obtain ⟨hInv3, hle2⟩ := ih s2 t h hInv2
        exact ⟨hInv3, hle.trans hle2⟩
  · intro s id hid a b c t halloc
    obtain ⟨hb, _, _⟩ := allocation_eq s a b c t halloc
    omega

/-- Concrete machine for the C9 witness: a single HALT instruction. -/
def c9s : Um := initUm [encodeInstruction 7 0 0 0] []

/-- The C9 witness state after one spin cycle (the HALT). -/
def c9After : Um := (c9s.spinCycle.getD (0, c9s)).2

/-- The C9 witness state after an ALLOC from `c9s`. -/
def c9Alloc : Um := (c9s.allocation 0 1 2).getD c9s

/-- Witness for C9 at the concrete machine `c9s`. -/
theorem pool_invariant_witness :
    Inv c9s ∧
    (Inv c9After ∧ c9s.nextAlloc ≤ c9After.nextAlloc) ∧
    (Inv c9s ∧ c9s.nextAlloc ≤ c9s.nextAlloc) ∧
    c9Alloc.gpr 1 ≠ 0 :=
  ⟨pool_invariant.1 [encodeInstruction 7 0 0 0] [],
    pool_invariant.2.1 c9s 7 c9After (by rfl)
      (pool_invariant.1 [encodeInstruction 7 0 0 0] []),
    pool_invariant.2.2.1 0 c9s c9s (by rfl)
      (pool_invariant.1 [encodeInstruction 7 0 0 0] []),
    pool_invariant.2.2.2 c9s 0 (by decide) 0 1 2 c9Alloc (by rfl)⟩

end UMSim
